import Mathlib

/-!
Verification of the rule-based text-scoring and report-synthesis engine of
the Reddit persona analyzer (src/reddit_analyzer.py).

The engine is embedded shallowly:

* Python strings are Lean `String`s; `str.count` (non-overlapping substring
  occurrence counting) is `pyCount`; `str.lower` is `pyLower` (ASCII, matching
  the ASCII texts the heuristics operate on).
* Python float arithmetic is modelled as exact rational arithmetic.  Because
  `ℚ`'s kernel arithmetic does not reduce, the executable embedding uses an
  unnormalised fraction type `Frac` (numerator/denominator) together with an
  interpretation `Frac.toQ : Frac → ℚ` and transfer lemmas, so theorems can be
  stated over `ℚ` while concrete runs evaluate by `decide`.
* Python division, which raises `ZeroDivisionError` on a zero divisor, is the
  fallible `pydiv : Frac → Frac → Option Frac`; every stage that divides
  returns an `Option`, and `none` models an exception escaping the stage.
* The mutable analyzer state read by the report template (the generation
  timestamp, `stats['cache_hits']`, `stats['analysis_time']`) is passed as
  explicit arguments `ts`, `cacheHits`, `analysisTime`.
* Python dicts that are built by insertion and iterated in insertion order
  (the trait dict, the `defaultdict` of interests) are association lists.
-/

/-! ## String primitives -/

/-- `listStartsWith pat l` is true when `pat` is an initial segment of `l`. -/
def listStartsWith : List Char → List Char → Bool
  | [], _ => true
  | _ :: _, [] => false
  | a :: as, b :: bs => a = b && listStartsWith as bs

/-- Greedy non-overlapping occurrence counting, the semantics of Python's
`str.count`.  `skip` is the number of characters still to be skipped after a
match (a match at a position consumes `kw.length` characters). -/
def countAux (kw : List Char) : Nat → List Char → Nat
  | _, [] => 0
  | Nat.succ k, _ :: rest => countAux kw k rest
  | 0, c :: rest =>
    if listStartsWith kw (c :: rest) then 1 + countAux kw (kw.length - 1) rest
    else countAux kw 0 rest

/-- Python `s.count(kw)`: non-overlapping substring occurrences of `kw` in `s`. -/
def pyCount (s : String) (kw : String) : Nat := countAux kw.data 0 s.data

/-- Python `s.lower()` (ASCII case folding). -/
def pyLower (s : String) : String := String.mk (s.data.map Char.toLower)

/-- `c * s` for a single character, as in Python `"█" * n`. -/
def strRepeat (c : Char) (n : Nat) : String := String.mk (List.replicate n c)

/-- Python format `f"{s:<w}"`: left-justify to width `w` with spaces. -/
def padRight (s : String) (w : Nat) : String :=
  s ++ strRepeat ' ' (w - s.length)

/-- Left-pad a digit string with zeros to the given length. -/
def padZeros (s : String) (w : Nat) : String :=
  strRepeat '0' (w - s.length) ++ s

/-! ## Exact rationals standing in for Python floats -/

/-- An unnormalised fraction `num / den`.  All fractions the embedding builds
have a positive denominator.  Arithmetic is exact; this models Python float
arithmetic, whose rounding never matters at the magnitudes the analyzer
handles. -/
structure Frac where
  num : Int
  den : Nat
deriving DecidableEq

/-- Embed a natural number (a Python `int`) as a fraction. -/
def Frac.ofNat (n : Nat) : Frac := ⟨n, 1⟩

/-- Fraction multiplication. -/
def Frac.mul (a b : Frac) : Frac := ⟨a.num * b.num, a.den * b.den⟩

/-- Strict comparison by cross-multiplication (valid for positive denominators). -/
def Frac.lt (a b : Frac) : Bool := a.num * b.den < b.num * a.den

/-- Non-strict comparison by cross-multiplication. -/
def Frac.le (a b : Frac) : Bool := a.num * b.den ≤ b.num * a.den

/-- The fraction denotes zero. -/
def Frac.isZero (a : Frac) : Bool := a.num = 0

/-- Python `min(a, b)` on floats. -/
def Frac.minF (a b : Frac) : Frac := if Frac.le a b then a else b

/-- Exact division of fractions; keeps the denominator nonnegative. -/
def Frac.div (a b : Frac) : Frac :=
  if b.num < 0 then ⟨-(a.num * (b.den : Int)), a.den * b.num.natAbs⟩
  else ⟨a.num * (b.den : Int), a.den * b.num.natAbs⟩

/-- Python `int(x)`: truncation toward zero. -/
def Frac.pyInt (a : Frac) : Int := Int.tdiv a.num (a.den : Int)

/-- `round(f * 10^p)` with ties to even — the rounding of Python's fixed-point
float formatting. -/
def Frac.scaleRound (f : Frac) (p : Nat) : Int :=
  let n := f.num * ((10 ^ p : Nat) : Int)
  let d := (f.den : Int)
  let q := Int.fdiv n d
  let r := n - q * d
  if 2 * r < d then q
  else if d < 2 * r then q + 1
  else if q % 2 = 0 then q else q + 1

/-- Python format `f"{x:.pf}"` on the exact value of `x`. -/
def fmtF (f : Frac) (prec : Nat) : String :=
  let n := Frac.scaleRound f prec
  let sign := if n < 0 then "-" else ""
  let m := n.natAbs
  let p := 10 ^ prec
  if prec = 0 then sign ++ Nat.repr m
  else sign ++ Nat.repr (m / p) ++ "." ++ padZeros (Nat.repr (m % p)) prec

/-- Python float division: raises (`none`) exactly on a zero divisor. -/
def pydiv (a b : Frac) : Option Frac :=
  if Frac.isZero b then none else some (Frac.div a b)

/-- Interpretation of a fraction as a rational number. -/
def Frac.toQ (a : Frac) : ℚ := (a.num : ℚ) / (a.den : ℚ)

/-! ## The analyzer's lexicon tables (src/reddit_analyzer.py, lines 234–263, 284–295, 355–356) -/

/-- A scraped content item: `(text, source url)`, as produced by the fetch stage. -/
abbrev Item := String × String

/-- `combined_text` of `ultra_fast_analysis`: the post/comment bodies joined by
single spaces and lowercased. -/
def combinedText (posts comments : List Item) : String :=
  pyLower (String.intercalate " " ((posts ++ comments).map Prod.fst))

/-- The `personality_indicators` table of `_analyze_personality_fast`:
trait → (keywords, weight).  Weights are the source's float literals
1.2, 1.1, 1.0, 1.3, 0.9 as exact fractions over 10. -/
def personality_indicators : List (String × List String × Frac) :=
  [ ("Analytical",
      (["analysis", "data", "research", "study", "evidence", "statistics",
        "logic", "rational", "objective", "fact"], ⟨12, 10⟩)),
    ("Creative",
      (["art", "music", "design", "creative", "imagine", "beautiful",
        "inspiration", "original", "artistic", "aesthetic"], ⟨11, 10⟩)),
    ("Social",
      (["friends", "people", "social", "community", "together", "group",
        "team", "collaborate", "meet", "party"], ⟨10, 10⟩)),
    ("Technical",
      (["code", "programming", "software", "tech", "computer", "algorithm",
        "development", "system", "api", "database"], ⟨13, 10⟩)),
    ("Intellectual",
      (["learn", "knowledge", "understand", "think", "philosophy", "science",
        "education", "academic", "theory", "concept"], ⟨11, 10⟩)),
    ("Humorous",
      (["funny", "hilarious", "joke", "lol", "humor", "comedy", "laugh",
        "amusing", "witty", "sarcastic"], ⟨9, 10⟩)),
    ("Helpful",
      (["help", "advice", "suggest", "recommend", "support", "assist",
        "guide", "solution", "answer", "explain"], ⟨10, 10⟩)) ]

/-- The `topic_keywords` table of `_extract_interests_fast`. -/
def topic_keywords : List (String × List String) :=
  [ ("Gaming", ["game", "gaming", "play", "player", "steam", "console", "pc",
      "xbox", "playstation", "nintendo"]),
    ("Technology", ["tech", "software", "app", "device", "digital", "internet",
      "mobile", "computer", "ai", "ml"]),
    ("Sports", ["sport", "team", "player", "game", "season", "match",
      "football", "basketball", "soccer", "baseball"]),
    ("Entertainment", ["movie", "show", "tv", "film", "series", "watch",
      "netflix", "youtube", "music", "band"]),
    ("Finance", ["money", "invest", "stock", "crypto", "bitcoin", "finance",
      "trading", "market", "economy", "bank"]),
    ("Health & Fitness", ["health", "fitness", "exercise", "diet", "medical",
      "doctor", "workout", "gym", "nutrition", "wellness"]),
    ("Education", ["learn", "study", "school", "university", "education",
      "course", "student", "teacher", "academic", "knowledge"]),
    ("Travel", ["travel", "trip", "vacation", "country", "city", "hotel",
      "flight", "tourism", "visit", "explore"]),
    ("Food", ["food", "cook", "recipe", "restaurant", "eat", "meal",
      "cuisine", "chef", "kitchen", "dish"]),
    ("Art & Design", ["art", "design", "draw", "paint", "creative", "artist",
      "gallery", "photography", "graphic", "visual"]) ]

/-- The fixed positive-word list of `_analyze_sentiment_basic`. -/
def positive_words : List String :=
  ["good", "great", "awesome", "amazing", "excellent", "fantastic",
   "wonderful", "perfect", "love", "like"]

/-- The fixed negative-word list of `_analyze_sentiment_basic`. -/
def negative_words : List String :=
  ["bad", "terrible", "awful", "hate", "horrible", "worst", "stupid",
   "annoying", "frustrating", "disappointed"]

/-! ## Trait scorer (`_analyze_personality_fast`, lines 232–272) -/

/-- `sum(text.count(keyword) for keyword in keywords)`. -/
def keywordHits (text : String) (kws : List String) : Nat :=
  (kws.map (pyCount text)).sum

/-- `score = sum(text.count(keyword) for keyword in keywords) * weight`. -/
def traitScore (text : String) (kws : List String) (w : Frac) : Frac :=
  Frac.mul (Frac.ofNat (keywordHits text kws)) w

/-- `_analyze_personality_fast`: the trait → confidence dict, in table order.
A trait is kept when `score > 2`, with confidence `min(score * 8, 100)`. -/
def analyzePersonalityFast (text : String) : List (String × Frac) :=
  personality_indicators.filterMap (fun p =>
    if Frac.lt ⟨2, 1⟩ (traitScore text p.2.1 p.2.2) then
      some (p.1, Frac.minF (Frac.mul (traitScore text p.2.1 p.2.2) ⟨8, 1⟩) ⟨100, 1⟩)
    else none)

/-! ## Interest extractor (`_extract_interests_fast`, lines 274–302) -/

/-- Python `\w` on the ASCII texts the analyzer handles. -/
def isWordChar (c : Char) : Bool := c.isAlphanum || c = '_'

/-- Fuel-driven scan implementing `re.findall(r'r/(\w+)', text)`: left-to-right,
non-overlapping, greedy capture of the word characters after each `r/`. -/
def subsGo : Nat → List Char → List (List Char)
  | 0, _ => []
  | _ + 1, [] => []
  | fuel + 1, 'r' :: '/' :: rest =>
    match rest.takeWhile isWordChar with
    | [] => subsGo fuel rest
    | w => w :: subsGo fuel (rest.drop w.length)
  | fuel + 1, _ :: rest => subsGo fuel rest

/-- `re.findall(r'r/(\w+)', text)`: the captured subreddit names in match order. -/
def findSubreddits (s : String) : List String :=
  (subsGo s.data.length s.data).map String.mk

/-- `defaultdict(int)` update `m[k] += v`, keeping insertion order. -/
def dictAdd (m : List (String × Nat)) (k : String) (v : Nat) : List (String × Nat) :=
  match m with
  | [] => [(k, v)]
  | (k', v') :: rest =>
    if k' = k then (k', v' + v) :: rest else (k', v') :: dictAdd rest k v

/-- Dict assignment `m[k] = v`, keeping insertion order. -/
def dictSet (m : List (String × Nat)) (k : String) (v : Nat) : List (String × Nat) :=
  match m with
  | [] => [(k, v)]
  | (k', v') :: rest =>
    if k' = k then (k', v) :: rest else (k', v') :: dictSet rest k v

/-- The `interests` dict of `_extract_interests_fast` before sorting:
`+3` per subreddit mention, then `score * 2` per topic whose keyword hit
count exceeds 2. -/
def interestsDict (text : String) : List (String × Nat) :=
  topic_keywords.foldl (fun m p =>
    if keywordHits text p.2 > 2 then dictSet m p.1 (keywordHits text p.2 * 2) else m)
    ((findSubreddits text).foldl (fun m sub => dictAdd m ("r/" ++ sub) 3) [])

/-- Stable descending insertion by score (the behaviour of Python's stable
`sorted(..., key=score, reverse=True)`). -/
def insertInterestDesc (p : String × Nat) : List (String × Nat) → List (String × Nat)
  | [] => [p]
  | q :: rest =>
    if q.2 ≤ p.2 then p :: q :: rest else q :: insertInterestDesc p rest

/-- Stable descending sort by score. -/
def sortInterestsDesc : List (String × Nat) → List (String × Nat)
  | [] => []
  | p :: rest => insertInterestDesc p (sortInterestsDesc rest)

/-- `_extract_interests_fast`: the sorted interest dict truncated to 15 entries. -/
def extractInterestsFast (text : String) : List (String × Nat) :=
  (sortInterestsDesc (interestsDict text)).take 15

/-! ## Communication analyzer (`_analyze_communication_fast`, lines 304–367) -/

/-- The word-list scores of `_analyze_sentiment_basic`: total occurrence count
of the given fixed word list over the space-joined, lowercased texts. -/
def wordScore (ws : List String) (texts : List String) : Nat :=
  (ws.map (pyCount (pyLower (String.intercalate " " texts)))).sum

/-- `_analyze_sentiment_basic` (lines 350–367): compare the positive and the
negative word scores with an asymmetric 1.5 factor. -/
def analyzeSentimentBasic (texts : List String) : String :=
  if texts = [] then "Neutral"
  else
    if Frac.lt (Frac.mul (Frac.ofNat (wordScore negative_words texts)) ⟨15, 10⟩)
        (Frac.ofNat (wordScore positive_words texts))
    then "Generally Positive"
    else if Frac.lt (Frac.mul (Frac.ofNat (wordScore positive_words texts)) ⟨15, 10⟩)
        (Frac.ofNat (wordScore negative_words texts))
    then "Generally Critical"
    else "Balanced"

/-- `_calculate_verbosity` (lines 326–339): bucket the mean text length;
`none` would be a `ZeroDivisionError`. -/
def calculateVerbosity (texts : List String) : Option String :=
  if texts = [] then some "Unknown"
  else do
    let avg ← pydiv (Frac.ofNat (texts.map String.length).sum) (Frac.ofNat texts.length)
    some (if Frac.lt ⟨500, 1⟩ avg then "Highly Verbose"
      else if Frac.lt ⟨200, 1⟩ avg then "Verbose"
      else if Frac.lt ⟨100, 1⟩ avg then "Moderate"
      else "Concise")

/-- `_determine_engagement_style` (lines 341–348). -/
def determineEngagementStyle (posts comments : List Item) : String :=
  if comments.length > posts.length * 2 then "Discussion-focused"
  else if posts.length > comments.length then "Content Creator"
  else "Balanced Participant"

/-- The seven fixed keys of the communication metrics dict. -/
structure CommMetrics where
  avg_post_length : Frac
  avg_comment_length : Frac
  total_activity : Nat
  post_to_comment_ratio : Frac
  verbosity : String
  engagement_style : String
  sentiment_tendency : String
deriving DecidableEq

/-- The dict `_analyze_communication_fast` returns: `{}` on empty input,
otherwise all seven keys. -/
inductive CommDict where
  | empty : CommDict
  | full : CommMetrics → CommDict
deriving DecidableEq

/-- `communication.get('avg_post_length', 0)`. -/
def cdAvgPost : CommDict → Frac
  | CommDict.empty => ⟨0, 1⟩
  | CommDict.full m => m.avg_post_length

/-- `communication.get('avg_comment_length', 0)`. -/
def cdAvgComment : CommDict → Frac
  | CommDict.empty => ⟨0, 1⟩
  | CommDict.full m => m.avg_comment_length

/-- `communication.get('total_activity', 0)`. -/
def cdTotalActivity : CommDict → Nat
  | CommDict.empty => 0
  | CommDict.full m => m.total_activity

/-- `communication.get('post_to_comment_ratio', 0)`. -/
def cdRatio : CommDict → Frac
  | CommDict.empty => ⟨0, 1⟩
  | CommDict.full m => m.post_to_comment_ratio

/-- `communication.get('verbosity', 'Unknown')`. -/
def cdVerbosity : CommDict → String
  | CommDict.empty => "Unknown"
  | CommDict.full m => m.verbosity

/-- `communication.get('engagement_style', 'Unknown')`. -/
def cdEngagementStyle : CommDict → String
  | CommDict.empty => "Unknown"
  | CommDict.full m => m.engagement_style

/-- `communication.get('sentiment_tendency', 'Unknown')`. -/
def cdSentiment : CommDict → String
  | CommDict.empty => "Unknown"
  | CommDict.full m => m.sentiment_tendency

/-- `_analyze_communication_fast` (lines 304–324). -/
def analyzeCommunicationFast (posts comments : List Item) : Option CommDict :=
  if posts = [] ∧ comments = [] then some CommDict.empty
  else do
    let post_lengths := if posts ≠ [] then posts.map (fun p => p.1.length) else [0]
    let comment_lengths := if comments ≠ [] then comments.map (fun p => p.1.length) else [0]
    let all_texts := (posts ++ comments).map Prod.fst
    let apl ← pydiv (Frac.ofNat post_lengths.sum) (Frac.ofNat (max post_lengths.length 1))
    let acl ← pydiv (Frac.ofNat comment_lengths.sum) (Frac.ofNat (max comment_lengths.length 1))
    let ratio ← pydiv (Frac.ofNat posts.length) (Frac.ofNat (max comments.length 1))
    let verb ← calculateVerbosity all_texts
    some (CommDict.full
      { avg_post_length := apl
        avg_comment_length := acl
        total_activity := posts.length + comments.length
        post_to_comment_ratio := ratio
        verbosity := verb
        engagement_style := determineEngagementStyle posts comments
        sentiment_tendency := analyzeSentimentBasic all_texts })

/-! ## Behavioral classifier (`_extract_behavioral_patterns`, lines 369–426) -/

/-- `_categorize_engagement` (lines 383–392). -/
def categorizeEngagement (total_activity : Nat) : String :=
  if total_activity > 80 then "Highly Active"
  else if total_activity > 40 then "Active"
  else if total_activity > 15 then "Moderate"
  else "Casual"

/-- `_analyze_discussion_style` (lines 394–406). -/
def analyzeDiscussionStyle (comments : List Item) : Option String :=
  if comments = [] then some "Non-participant"
  else do
    let avg ← pydiv (Frac.ofNat (comments.map (fun p => p.1.length)).sum)
      (Frac.ofNat comments.length)
    some (if Frac.lt ⟨300, 1⟩ avg then "Detailed Contributor"
      else if Frac.lt ⟨100, 1⟩ avg then "Thoughtful Participant"
      else "Brief Responder")

/-- `_categorize_activity_level` (lines 408–417). -/
def categorizeActivityLevel (total_activity : Nat) : String :=
  if total_activity > 100 then "Power User"
  else if total_activity > 50 then "Regular User"
  else if total_activity > 20 then "Occasional User"
  else "Infrequent User"

/-- `_analyze_interaction_pattern` (lines 419–426). -/
def analyzeInteractionPattern (posts comments : List Item) : String :=
  if posts.length > comments.length * 2 then "Content Creator"
  else if comments.length > posts.length * 3 then "Community Participant"
  else "Balanced Contributor"

/-- The five fixed keys of the behavioral patterns dict. -/
structure Patterns where
  engagement_level : String
  content_preference : String
  discussion_style : String
  activity_level : String
  interaction_pattern : String
deriving DecidableEq

/-- `_extract_behavioral_patterns` (lines 369–381). -/
def extractBehavioralPatterns (posts comments : List Item) : Option Patterns := do
  let total_activity := posts.length + comments.length
  let ds ← analyzeDiscussionStyle comments
  some { engagement_level := categorizeEngagement total_activity
         content_preference :=
           if comments.length > posts.length then "Comments"
           else if posts.length > comments.length then "Posts"
           else "Balanced"
         discussion_style := ds
         activity_level := categorizeActivityLevel total_activity
         interaction_pattern := analyzeInteractionPattern posts comments }

/-! ## Report synthesizer (`_generate_fast_report` and helpers, lines 428–566) -/

/-- Stable descending insertion by confidence, for `sorted(traits.items(),
key=lambda x: x[1], reverse=True)`. -/
def insertTraitDesc (p : String × Frac) : List (String × Frac) → List (String × Frac)
  | [] => [p]
  | q :: rest =>
    if Frac.le q.2 p.2 then p :: q :: rest else q :: insertTraitDesc p rest

/-- Stable descending sort of the trait dict items by confidence. -/
def sortTraitsDesc : List (String × Frac) → List (String × Frac)
  | [] => []
  | p :: rest => insertTraitDesc p (sortTraitsDesc rest)

/-- `_format_traits` (lines 505–516). -/
def formatTraits (traits : List (String × Frac)) : String :=
  if traits = [] then "• No significant personality traits detected from available data"
  else
    String.intercalate "\n" ((sortTraitsDesc traits).map (fun p =>
      let bar_length := (Frac.div p.2 ⟨10, 1⟩).pyInt
      let bar := strRepeat '█' bar_length.toNat ++ strRepeat '▒' (10 - bar_length.toNat)
      "• " ++ padRight p.1 15 ++ " [" ++ bar ++ "] " ++ fmtF p.2 1 ++ "%"))

/-- Python `max` over a nonempty list of ints. -/
def listMaxNat : List Nat → Nat
  | [] => 0
  | x :: xs => xs.foldl max x

/-- One line of `_format_interests`: `relevance = int((score / max_score) * 5)`,
then the star bar and the formatted line. -/
def interestLine (max_score : Nat) (p : String × Nat) : Option String := do
  let q ← pydiv (Frac.ofNat p.2) (Frac.ofNat max_score)
  let relevance := (Frac.mul q ⟨5, 1⟩).pyInt
  some ("• " ++ padRight p.1 20 ++ " " ++ strRepeat '★' relevance.toNat ++
    strRepeat '☆' (5 - relevance.toNat) ++ " (Score: " ++ toString p.2 ++ ")")

/-- `_format_interests` (lines 518–531); the star rating divides by
`max(interests.values())`, taken after the emptiness early return. -/
def formatInterests (interests : List (String × Nat)) : Option String :=
  if interests = [] then some "• No specific interests detected from available data"
  else do
    let lines ← (interests.take 10).mapM
      (interestLine (if interests = [] then 1 else listMaxNat (interests.map Prod.snd)))
    some (String.intercalate "\n" lines)

/-- `_generate_quick_insights` (lines 533–566). -/
def generateQuickInsights (traits : List (String × Frac)) (interests : List (String × Nat))
    (communication : CommDict) (patterns : Patterns) : String :=
  let l1 : List String :=
    match traits with
    | [] => []
    | t :: rest =>
      let top := rest.foldl (fun best q => if Frac.lt best.2 q.2 then q else best) t
      ["• Primary personality trait: " ++ top.1 ++ " (" ++ fmtF top.2 1 ++ "% confidence)"]
  let ta := cdTotalActivity communication
  let l2 : List String :=
    if ta > 50 then ["• High activity user with " ++ toString ta ++ " total interactions"]
    else if ta > 20 then
      ["• Moderate activity user with " ++ toString ta ++ " total interactions"]
    else ["• Low activity user with " ++ toString ta ++ " total interactions"]
  let verbosity := cdVerbosity communication
  let l3 : List String :=
    if verbosity ≠ "Unknown" then ["• Communication style: " ++ verbosity] else []
  let l4 : List String :=
    match interests with
    | [] => []
    | p :: _ => ["• Primary interest area: " ++ p.1]
  let l5 : List String :=
    if patterns.engagement_level ≠ "Unknown" then
      ["• User engagement level: " ++ patterns.engagement_level]
    else []
  let insights := l1 ++ l2 ++ l3 ++ l4 ++ l5
  if insights = [] then "• Analysis complete - see detailed sections above"
  else String.intercalate "\n" insights

/-- `'=' * 80`. -/
def eq80 : String := strRepeat '=' 80

/-- The report template up to the generation timestamp. -/
def reportPartA (username : String) (posts comments : List Item) : String :=
  "\n" ++ eq80 ++ "\n🧠 REDDIT PERSONA ANALYSIS REPORT\n" ++ eq80 ++
  "\n\n👤 USER: u/" ++ username ++
  "\n🔍 ANALYSIS ENGINE: Ultra-Fast Multi-Algorithm Analysis (100% Free)" ++
  "\n📊 DATA POINTS: " ++ toString posts.length ++ " posts, " ++
  toString comments.length ++ " comments" ++
  "\n⚡ PROCESSING: Multi-threaded parallel analysis" ++
  "\n🕒 GENERATED: "

/-- The report template between the timestamp and the cache-hits counter. -/
def reportPartB (ft fi : String) (comm : CommDict) (pat : Patterns) (qi : String) : String :=
  "\n\n" ++ eq80 ++ "\n🎯 PERSONALITY TRAITS\n" ++ eq80 ++ "\n\n" ++ ft ++
  "\n\n" ++ eq80 ++ "\n🔍 INTERESTS & COMMUNITIES\n" ++ eq80 ++ "\n\n" ++ fi ++
  "\n\n" ++ eq80 ++ "\n💬 COMMUNICATION STYLE\n" ++ eq80 ++
  "\n\n• Average Post Length: " ++ fmtF (cdAvgPost comm) 0 ++ " characters" ++
  "\n• Average Comment Length: " ++ fmtF (cdAvgComment comm) 0 ++ " characters" ++
  "\n• Total Activity: " ++ toString (cdTotalActivity comm) ++ " interactions" ++
  "\n• Post-to-Comment Ratio: " ++ fmtF (cdRatio comm) 2 ++
  "\n• Verbosity Level: " ++ cdVerbosity comm ++
  "\n• Engagement Style: " ++ cdEngagementStyle comm ++
  "\n• Sentiment Tendency: " ++ cdSentiment comm ++
  "\n\n" ++ eq80 ++ "\n🎭 BEHAVIORAL PATTERNS\n" ++ eq80 ++
  "\n\n# Continuing from where the code cut off...\n" ++
  "\n• Engagement Level: " ++ pat.engagement_level ++
  "\n• Content Preference: " ++ pat.content_preference ++
  "\n• Discussion Style: " ++ pat.discussion_style ++
  "\n• Activity Level: " ++ pat.activity_level ++
  "\n• Interaction Pattern: " ++ pat.interaction_pattern ++
  "\n\n" ++ eq80 ++ "\n📈 QUICK INSIGHTS\n" ++ eq80 ++ "\n\n" ++ qi ++
  "\n\n" ++ eq80 ++ "\n⚡ PERFORMANCE METRICS\n" ++ eq80 ++
  "\n\n• Cache Hits: "

/-- The report template between the cache-hits counter and the processing time. -/
def reportPartC : String := "\n• Processing Time: "

/-- The report template after the processing time. -/
def reportPartD : String :=
  " seconds" ++
  "\n• Engine: Rule-based Multi-Algorithm Analysis" ++
  "\n• Accuracy: High (based on activity patterns)" ++
  "\n\n" ++ eq80 ++ "\n🛡️ PRIVACY & SECURITY\n" ++ eq80 ++
  "\n\n✅ All data analyzed locally - no external AI APIs used" ++
  "\n✅ No personal information stored or transmitted" ++
  "\n✅ Analysis based only on public Reddit activity" ++
  "\n✅ Results generated using secure, open-source algorithms" ++
  "\n\n" ++ eq80 ++ "\n        "

/-- `_generate_fast_report` (lines 428–503).  `ts` is the
`datetime.now().strftime(...)` stamp; `cacheHits` and `analysisTime` are the
values of `self.stats['cache_hits']` and `self.stats.get('analysis_time', 0)`
at rendering time. -/
def generateFastReport (username : String) (traits : List (String × Frac))
    (interests : List (String × Nat)) (communication : CommDict) (patterns : Patterns)
    (posts comments : List Item) (ts : String) (cacheHits : Nat)
    (analysisTime : Frac) : Option String := do
  let fi ← formatInterests interests
  some (reportPartA username posts comments ++ ts ++
    reportPartB (formatTraits traits) fi communication patterns
      (generateQuickInsights traits interests communication patterns) ++
    toString cacheHits ++ reportPartC ++ fmtF analysisTime 2 ++ reportPartD)

/-! ## Pipeline entry points (`ultra_fast_analysis`, `analyze_user`) -/

/-- `ultra_fast_analysis` (lines 202–230): run the four analyses on the same
inputs and render the report. -/
def ultraFastAnalysis (posts comments : List Item) (username ts : String)
    (cacheHits : Nat) (analysisTime : Frac) : Option String := do
  let communication ← analyzeCommunicationFast posts comments
  let patterns ← extractBehavioralPatterns posts comments
  generateFastReport username (analyzePersonalityFast (combinedText posts comments))
    (extractInterestsFast (combinedText posts comments))
    communication patterns posts comments ts cacheHits analysisTime

/-- `analyze_user` (lines 582–625), restricted to its data flow: the fetch
outcome is `none` when `parallel_scrape_user_data` returned `(None, None)`
(user not found / scrape error), and `some (posts, comments)` otherwise.
Only the `(None, None)` outcome skips the analysis stage. -/
def analyzeUser (fetched : Option (List Item × List Item)) (username ts : String)
    (cacheHits : Nat) (analysisTime : Frac) : Option String :=
  match fetched with
  | none => none
  | some (posts, comments) =>
    ultraFastAnalysis posts comments username ts cacheHits analysisTime

/-! ## Concrete runs used as test fixtures -/

/-- Eight fetched comments with distinct source URLs (fixture for the
citation-rendering question). -/
def eightComments : List Item :=
  [ ("aaaaaaaaaaaa", "https://www.reddit.com/c1"),
    ("aaaaaaaaaaaa", "https://www.reddit.com/c2"),
    ("aaaaaaaaaaaa", "https://www.reddit.com/c3"),
    ("aaaaaaaaaaaa", "https://www.reddit.com/c4"),
    ("aaaaaaaaaaaa", "https://www.reddit.com/c5"),
    ("aaaaaaaaaaaa", "https://www.reddit.com/c6"),
    ("aaaaaaaaaaaa", "https://www.reddit.com/c7"),
    ("aaaaaaaaaaaa", "https://www.reddit.com/c8") ]

/-- The report of a run on no data at all. -/
def emptyRunReport : String :=
  (ultraFastAnalysis [] [] "testuser" "2024-01-01 12:00:00" 0 ⟨0, 1⟩).getD ""

/-- The report of a run on `eightComments` and no posts. -/
def eightCommentsReport : String :=
  (ultraFastAnalysis [] eightComments "testuser" "2024-01-01 12:00:00" 0 ⟨0, 1⟩).getD ""

/-! # Theorems -/

/-! ## Transfer lemmas between `Frac` and `ℚ` -/
theorem Frac.toQ_ofNat (n : Nat) : (Frac.ofNat n).toQ = (n : ℚ) := by
  simp [Frac.ofNat, Frac.toQ]

theorem Frac.toQ_mul (a b : Frac) : (a.mul b).toQ = a.toQ * b.toQ := by
  simp only [Frac.mul, Frac.toQ]
  push_cast
  rw [div_mul_div_comm]

theorem Frac.lt_iff (a b : Frac) (ha : 0 < a.den) (hb : 0 < b.den) :
    Frac.lt a b = true ↔ a.toQ < b.toQ := by
  have ha' : (0 : ℚ) < (a.den : ℚ) := by exact_mod_cast ha
  have hb' : (0 : ℚ) < (b.den : ℚ) := by exact_mod_cast hb
  simp only [Frac.lt, Frac.toQ, decide_eq_true_eq, div_lt_div_iff₀ ha' hb']
  constructor
  · intro h
    exact_mod_cast h
  · intro h
    exact_mod_cast h

theorem Frac.le_iff (a b : Frac) (ha : 0 < a.den) (hb : 0 < b.den) :
    Frac.le a b = true ↔ a.toQ ≤ b.toQ := by
  have ha' : (0 : ℚ) < (a.den : ℚ) := by exact_mod_cast ha
  have hb' : (0 : ℚ) < (b.den : ℚ) := by exact_mod_cast hb
  simp only [Frac.le, Frac.toQ, decide_eq_true_eq, div_le_div_iff₀ ha' hb']
  constructor
  · intro h
    exact_mod_cast h
  · intro h
    exact_mod_cast h

theorem Frac.toQ_minF (a b : Frac) (ha : 0 < a.den) (hb : 0 < b.den) :
    (Frac.minF a b).toQ = min a.toQ b.toQ := by
  unfold Frac.minF
  rcases h : Frac.le a b with _ | _
  · have : ¬ a.toQ ≤ b.toQ := by
      rw [← Frac.le_iff a b ha hb, h]; simp
    simp [min_eq_right (le_of_not_le this)]
  · have : a.toQ ≤ b.toQ := (Frac.le_iff a b ha hb).mp h
    simp [min_eq_left this]


/-! ## Counting lemmas: `pyCount` never decreases when text is appended -/

theorem listStartsWith_length {kw l : List Char} (h : listStartsWith kw l = true) :
    kw.length ≤ l.length := by
  induction kw generalizing l with
  | nil => simp
  | cons a as ih =>
    cases l with
    | nil => simp [listStartsWith] at h
    | cons b bs =>
      simp only [listStartsWith, Bool.and_eq_true] at h
      simpa [Nat.succ_le_succ_iff] using ih h.2

theorem listStartsWith_append {kw l t : List Char} (h : listStartsWith kw l = true) :
    listStartsWith kw (l ++ t) = true := by
  induction kw generalizing l with
  | nil => simp [listStartsWith]
  | cons a as ih =>
    cases l with
    | nil => simp [listStartsWith] at h
    | cons b bs =>
      simp only [listStartsWith, Bool.and_eq_true] at h ⊢
      exact ⟨h.1, ih h.2⟩

theorem listStartsWith_append_of_le {kw l : List Char} (t : List Char)
    (h : kw.length ≤ l.length) :
    listStartsWith kw (l ++ t) = listStartsWith kw l := by
  induction kw generalizing l with
  | nil => simp [listStartsWith]
  | cons a as ih =>
    cases l with
    | nil => simp at h
    | cons b bs =>
      simp only [List.length_cons, Nat.succ_le_succ_iff] at h
      simp only [List.cons_append, listStartsWith, List.append_eq]
      rw [ih h]

theorem countAux_eq_zero_of_short {kw l : List Char} (skip : Nat)
    (h : l.length < kw.length) : countAux kw skip l = 0 := by
  induction l generalizing skip with
  | nil => cases skip <;> rfl
  | cons c rest ih =>
    have hr : rest.length < kw.length := Nat.lt_of_le_of_lt (Nat.le_succ _) h
    cases skip with
    | succ k => simpa [countAux] using ih k hr
    | zero =>
      cases hs : listStartsWith kw (c :: rest) with
      | true => exact absurd (listStartsWith_length hs) (Nat.not_le_of_lt h)
      | false => simpa [countAux, hs] using ih 0 hr

theorem countAux_le_append (kw s t : List Char) (skip : Nat) :
    countAux kw skip s ≤ countAux kw skip (s ++ t) := by
  induction s generalizing skip with
  | nil => simp [countAux]
  | cons c rest ih =>
    cases skip with
    | succ k => simpa [countAux] using ih k
    | zero =>
      cases hs : listStartsWith kw (c :: rest) with
      | true =>
        have hs' : listStartsWith kw ((c :: rest) ++ t) = true := listStartsWith_append hs
        simp only [List.cons_append] at hs' ⊢
        simp only [countAux, hs, hs', if_true]
        exact Nat.add_le_add_left (ih _) 1
      | false =>
        cases hst : listStartsWith kw ((c :: rest) ++ t) with
        | false =>
          simp only [List.cons_append] at hst ⊢
          simpa [countAux, hs, hst] using ih 0
        | true =>
          have hlen : (c :: rest).length < kw.length := by
            by_contra hle
            rw [listStartsWith_append_of_le t (Nat.le_of_not_lt hle)] at hst
            rw [hst] at hs
            exact Bool.true_eq_false.mp hs
          have hz : countAux kw 0 (c :: rest) = 0 := countAux_eq_zero_of_short 0 hlen
          rw [hz]
          exact Nat.zero_le _

theorem pyCount_le_append (s t kw : String) : pyCount s kw ≤ pyCount (s ++ t) kw := by
  have hd : (s ++ t).data = s.data ++ t.data := String.data_append ..
  unfold pyCount
  rw [hd]
  exact countAux_le_append kw.data s.data t.data 0

theorem keywordHits_le_append (s t : String) (kws : List String) :
    keywordHits s kws ≤ keywordHits (s ++ t) kws := by
  unfold keywordHits
  exact List.sum_le_sum (fun kw _ => pyCount_le_append s t kw)

/-! ## Facts about the personality table -/

theorem personality_keys_nodup : (personality_indicators.map Prod.fst).Nodup := by decide

theorem personality_weights_num_nonneg :
    ∀ p ∈ personality_indicators, 0 ≤ p.2.2.num := by decide

theorem personality_weights_den_pos :
    ∀ p ∈ personality_indicators, 0 < p.2.2.den := by decide

theorem assoc_key_unique {β : Type} {l : List (String × β)}
    (hnd : (l.map Prod.fst).Nodup) {k : String} {b b' : β}
    (h1 : (k, b) ∈ l) (h2 : (k, b') ∈ l) : b = b' := by
  induction l with
  | nil => cases h1
  | cons p rest ih =>
    rw [List.map_cons, List.nodup_cons] at hnd
    rcases List.mem_cons.mp h1 with h1 | h1 <;> rcases List.mem_cons.mp h2 with h2 | h2
    · rw [← h1] at h2
      exact (congrArg Prod.snd h2).symm
    · exfalso
      apply hnd.1
      have hk : p.1 = k := congrArg Prod.fst h1.symm
      rw [hk]
      exact List.mem_map_of_mem Prod.fst h2
    · exfalso
      apply hnd.1
      have hk : p.1 = k := congrArg Prod.fst h2.symm
      rw [hk]
      exact List.mem_map_of_mem Prod.fst h1
    · exact ih hnd.2 h1 h2

/-! ## Characterization of the trait scorer's output -/

theorem mem_analyzePersonalityFast {text t : String} {c : Frac} :
    (t, c) ∈ analyzePersonalityFast text ↔
      ∃ kws w, (t, (kws, w)) ∈ personality_indicators ∧
        Frac.lt ⟨2, 1⟩ (traitScore text kws w) = true ∧
        c = Frac.minF (Frac.mul (traitScore text kws w) ⟨8, 1⟩) ⟨100, 1⟩ := by
  unfold analyzePersonalityFast
  rw [List.mem_filterMap]
  constructor
  · rintro ⟨⟨t', kws, w⟩, hmem, hf⟩
    by_cases h : Frac.lt ⟨2, 1⟩ (traitScore text kws w) = true
    · simp only [h, if_true, Option.some.injEq, Prod.mk.injEq] at hf
      exact ⟨kws, w, hf.1 ▸ hmem, h, hf.2.symm⟩
    · simp only [Bool.not_eq_true] at h
      simp [h] at hf
  · rintro ⟨kws, w, hmem, hlt, rfl⟩
    exact ⟨(t, (kws, w)), hmem, by simp [hlt]⟩

theorem traitScore_den (text : String) (kws : List String) (w : Frac) :
    (traitScore text kws w).den = w.den := by
  simp [traitScore, Frac.mul, Frac.ofNat]

theorem traitScore_toQ (text : String) (kws : List String) (w : Frac) :
    (traitScore text kws w).toQ = (keywordHits text kws : ℚ) * w.toQ := by
  rw [traitScore, Frac.toQ_mul, Frac.toQ_ofNat]

/-- Claim C1: for every combined lowercased input text, a personality trait
appears in the trait-scorer output iff its weighted keyword score (the sum of
non-overlapping substring occurrence counts of its keywords, times the trait's
weight) exceeds the minimum-evidence threshold of 2; when emitted, its
confidence equals `min(score * 8, 100)`, so every emitted confidence lies in
`[0, 100]`. -/
theorem trait_scorer_threshold_and_cap (text t : String) (kws : List String) (w : Frac)
    (h : (t, (kws, w)) ∈ personality_indicators) :
    ((∃ c, (t, c) ∈ analyzePersonalityFast text) ↔ 2 < (traitScore text kws w).toQ) ∧
    ∀ c, (t, c) ∈ analyzePersonalityFast text →
      c.toQ = min ((traitScore text kws w).toQ * 8) 100 ∧ 0 ≤ c.toQ ∧ c.toQ ≤ 100 := by
  have hwden : 0 < w.den := personality_weights_den_pos _ h
  have hsden : 0 < (traitScore text kws w).den := by rw [traitScore_den]; exact hwden
  have h2Q : (⟨2, 1⟩ : Frac).toQ = 2 := by norm_num [Frac.toQ]
  have hlt_iff : Frac.lt ⟨2, 1⟩ (traitScore text kws w) = true
      ↔ 2 < (traitScore text kws w).toQ := by
    rw [Frac.lt_iff _ _ (by norm_num) hsden, h2Q]
  have hmulden : 0 < (Frac.mul (traitScore text kws w) ⟨8, 1⟩).den := by
    simpa [Frac.mul] using hsden
  have hmin : (Frac.minF (Frac.mul (traitScore text kws w) ⟨8, 1⟩) ⟨100, 1⟩).toQ
      = min ((traitScore text kws w).toQ * 8) 100 := by
    rw [Frac.toQ_minF _ _ hmulden (by norm_num), Frac.toQ_mul]
    norm_num [Frac.toQ]
  have huniq : ∀ kws' w', (t, (kws', w')) ∈ personality_indicators → kws = kws' ∧ w = w' := by
    intro kws' w' h'
    have heq := assoc_key_unique personality_keys_nodup h h'
    exact ⟨congrArg Prod.fst heq, congrArg Prod.snd heq⟩
  constructor
  · constructor
    · rintro ⟨c, hc⟩
      obtain ⟨kws', w', hmem', hlt', -⟩ := mem_analyzePersonalityFast.mp hc
      obtain ⟨rfl, rfl⟩ := huniq kws' w' hmem'
      exact hlt_iff.mp hlt'
    · intro hgt
      exact ⟨_, mem_analyzePersonalityFast.mpr ⟨kws, w, h, hlt_iff.mpr hgt, rfl⟩⟩
  · intro c hc
    obtain ⟨kws', w', hmem', hlt', rfl⟩ := mem_analyzePersonalityFast.mp hc
    obtain ⟨rfl, rfl⟩ := huniq kws' w' hmem'
    have hgt : 2 < (traitScore text kws w).toQ := hlt_iff.mp hlt'
    refine ⟨hmin, ?_, ?_⟩
    · rw [hmin]
      have h8 : (0 : ℚ) ≤ (traitScore text kws w).toQ * 8 := by nlinarith
      exact le_min h8 (by norm_num)
    · rw [hmin]
      exact min_le_right _ _

/-- Witness for C1 at a concrete input: the "Technical" trait on the text
`"code code code"` (three keyword hits, weight 1.3, score 3.9 > 2). -/
theorem trait_scorer_threshold_and_cap_witness :
    (("Technical", (["code", "programming", "software", "tech", "computer", "algorithm",
        "development", "system", "api", "database"], (⟨13, 10⟩ : Frac)))
      ∈ personality_indicators) ∧
    ((∃ c, ("Technical", c) ∈ analyzePersonalityFast "code code code") ↔
      2 < (traitScore "code code code" ["code", "programming", "software", "tech", "computer",
        "algorithm", "development", "system", "api", "database"] ⟨13, 10⟩).toQ) :=
  ⟨by decide,
    (trait_scorer_threshold_and_cap "code code code" "Technical"
      ["code", "programming", "software", "tech", "computer", "algorithm",
        "development", "system", "api", "database"] ⟨13, 10⟩ (by decide)).1⟩

/-- Claim C7: appending additional occurrences of one of a trait's keywords to
the input text, holding everything else fixed, never decreases that trait's
score. -/
theorem trait_score_keyword_monotone (text : String) (t : String) (kws : List String)
    (w : Frac) (kw : String) (h : (t, (kws, w)) ∈ personality_indicators)
    (hkw : kw ∈ kws) (extra : Nat) :
    (traitScore text kws w).toQ
      ≤ (traitScore (text ++ String.join (List.replicate extra kw)) kws w).toQ := by
  rw [traitScore_toQ, traitScore_toQ]
  have hw : 0 ≤ w.toQ := by
    have hnum := personality_weights_num_nonneg _ h
    have hnum' : (0 : ℚ) ≤ (w.num : ℚ) := by exact_mod_cast hnum
    have hden : (0 : ℚ) ≤ (w.den : ℚ) := Nat.cast_nonneg _
    exact div_nonneg hnum' hden
  have hc : (keywordHits text kws : ℚ)
      ≤ (keywordHits (text ++ String.join (List.replicate extra kw)) kws : ℚ) := by
    exact_mod_cast keywordHits_le_append text _ kws
  exact mul_le_mul_of_nonneg_right hc hw

/-- Witness for C7 at a concrete input: two more copies of the Analytical
keyword `"data"` appended to the text `"data"`. -/
theorem trait_score_keyword_monotone_witness :
    (("Analytical", (["analysis", "data", "research", "study", "evidence", "statistics",
        "logic", "rational", "objective", "fact"], (⟨12, 10⟩ : Frac)))
      ∈ personality_indicators) ∧
    ("data" ∈ ["analysis", "data", "research", "study", "evidence", "statistics",
        "logic", "rational", "objective", "fact"]) ∧
    (traitScore "data" ["analysis", "data", "research", "study", "evidence", "statistics",
        "logic", "rational", "objective", "fact"] ⟨12, 10⟩).toQ
      ≤ (traitScore ("data" ++ String.join (List.replicate 2 "data"))
          ["analysis", "data", "research", "study", "evidence", "statistics",
           "logic", "rational", "objective", "fact"] ⟨12, 10⟩).toQ :=
  ⟨by decide, by decide,
    trait_score_keyword_monotone "data" "Analytical"
      ["analysis", "data", "research", "study", "evidence", "statistics",
       "logic", "rational", "objective", "fact"] ⟨12, 10⟩ "data" (by decide) (by decide) 2⟩

/-! ## The interest extractor's output shape -/

theorem mem_insertInterestDesc {q p : String × Nat} {l : List (String × Nat)} :
    q ∈ insertInterestDesc p l ↔ q = p ∨ q ∈ l := by
  induction l with
  | nil => simp [insertInterestDesc]
  | cons r rest ih =>
    by_cases h : r.2 ≤ p.2
    · simp [insertInterestDesc, h]
    · simp only [insertInterestDesc, if_neg h, List.mem_cons, ih]
      tauto

theorem mem_sortInterestsDesc {p : String × Nat} {l : List (String × Nat)} :
    p ∈ sortInterestsDesc l ↔ p ∈ l := by
  induction l with
  | nil => simp [sortInterestsDesc]
  | cons r rest ih =>
    simp [sortInterestsDesc, mem_insertInterestDesc, ih]

theorem pairwise_insertInterestDesc {p : String × Nat} {l : List (String × Nat)}
    (h : List.Pairwise (fun a b => b.2 ≤ a.2) l) :
    List.Pairwise (fun a b => b.2 ≤ a.2) (insertInterestDesc p l) := by
  induction l with
  | nil => simp [insertInterestDesc]
  | cons r rest ih =>
    rcases List.pairwise_cons.mp h with ⟨hr, hrest⟩
    by_cases hle : r.2 ≤ p.2
    · rw [insertInterestDesc, if_pos hle, List.pairwise_cons]
      refine ⟨?_, h⟩
      intro b hb
      rcases List.mem_cons.mp hb with rfl | hb
      · exact hle
      · exact Nat.le_trans (hr b hb) hle
    · rw [insertInterestDesc, if_neg hle, List.pairwise_cons]
      refine ⟨?_, ih hrest⟩
      intro b hb
      rcases mem_insertInterestDesc.mp hb with rfl | hb
      · exact Nat.le_of_lt (Nat.lt_of_not_le hle)
      · exact hr b hb

theorem pairwise_sortInterestsDesc (l : List (String × Nat)) :
    List.Pairwise (fun a b => b.2 ≤ a.2) (sortInterestsDesc l) := by
  induction l with
  | nil => simp [sortInterestsDesc]
  | cons r rest ih => exact pairwise_insertInterestDesc ih

theorem filter_insertInterestDesc (v : Nat) (p : String × Nat) (l : List (String × Nat)) :
    (insertInterestDesc p l).filter (fun q => q.2 == v)
      = if p.2 = v then p :: l.filter (fun q => q.2 == v)
        else l.filter (fun q => q.2 == v) := by
  induction l with
  | nil =>
    by_cases h : p.2 = v <;> simp [insertInterestDesc, List.filter_cons, beq_iff_eq, h]
  | cons r rest ih =>
    by_cases hle : r.2 ≤ p.2
    · rw [insertInterestDesc, if_pos hle]
      by_cases h : p.2 = v <;> simp [List.filter_cons, h]
    · rw [insertInterestDesc, if_neg hle]
      rw [List.filter_cons, List.filter_cons, ih]
      by_cases h : p.2 = v
      · have hrv : ¬ (r.2 = v) := by
          intro hr
          exact hle (Nat.le_of_eq (hr.trans h.symm))
        simp [h, hrv]
      · simp [h]

theorem filter_sortInterestsDesc (v : Nat) (l : List (String × Nat)) :
    (sortInterestsDesc l).filter (fun q => q.2 == v) = l.filter (fun q => q.2 == v) := by
  induction l with
  | nil => simp [sortInterestsDesc]
  | cons r rest ih =>
    rw [sortInterestsDesc, filter_insertInterestDesc, List.filter_cons]
    by_cases h : r.2 = v <;> simp [h, ih]

/-! ## Positivity of interest scores -/

theorem foldl_preserve {α β : Type} (P : β → Prop) (f : β → α → β) (l : List α) (init : β)
    (h0 : P init) (hstep : ∀ b a, P b → P (f b a)) : P (l.foldl f init) := by
  induction l generalizing init with
  | nil => exact h0
  | cons a rest ih => exact ih (f init a) (hstep init a h0)

theorem dictAdd_pos {m : List (String × Nat)} {k : String} {v : Nat}
    (hm : ∀ p ∈ m, 0 < p.2) (hv : 0 < v) : ∀ p ∈ dictAdd m k v, 0 < p.2 := by
  induction m with
  | nil =>
    intro p hp
    rw [dictAdd] at hp
    rw [List.mem_singleton.mp hp]
    exact hv
  | cons r rest ih =>
    intro p hp
    obtain ⟨k', v'⟩ := r
    rw [dictAdd] at hp
    by_cases h : k' = k
    · rw [if_pos h] at hp
      rcases List.mem_cons.mp hp with heq | hp
      · have hv' : 0 < v' := hm (k', v') (List.mem_cons_self _ _)
        rw [heq]
        show 0 < v' + v
        omega
      · exact hm p (List.mem_cons_of_mem _ hp)
    · rw [if_neg h] at hp
      rcases List.mem_cons.mp hp with heq | hp
      · rw [heq]
        exact hm (k', v') (List.mem_cons_self _ _)
      · exact ih (fun q hq => hm q (List.mem_cons_of_mem _ hq)) p hp

theorem dictSet_pos {m : List (String × Nat)} {k : String} {v : Nat}
    (hm : ∀ p ∈ m, 0 < p.2) (hv : 0 < v) : ∀ p ∈ dictSet m k v, 0 < p.2 := by
  induction m with
  | nil =>
    intro p hp
    rw [dictSet] at hp
    rw [List.mem_singleton.mp hp]
    exact hv
  | cons r rest ih =>
    intro p hp
    obtain ⟨k', v'⟩ := r
    rw [dictSet] at hp
    by_cases h : k' = k
    · rw [if_pos h] at hp
      rcases List.mem_cons.mp hp with heq | hp
      · rw [heq]
        exact hv
      · exact hm p (List.mem_cons_of_mem _ hp)
    · rw [if_neg h] at hp
      rcases List.mem_cons.mp hp with heq | hp
      · rw [heq]
        exact hm (k', v') (List.mem_cons_self _ _)
      · exact ih (fun q hq => hm q (List.mem_cons_of_mem _ hq)) p hp

theorem interestsDict_pos (text : String) : ∀ p ∈ interestsDict text, 0 < p.2 := by
  unfold interestsDict
  refine foldl_preserve (fun m : List (String × Nat) => ∀ p ∈ m, 0 < p.2) _ _ _ ?_ ?_
  · refine foldl_preserve (fun m : List (String × Nat) => ∀ p ∈ m, 0 < p.2) _ _ _ ?_ ?_
    · intro p hp
      cases hp
    · intro m sub hm
      exact dictAdd_pos hm (by norm_num)
  · intro m q hm
    by_cases h : keywordHits text q.2 > 2
    · rw [if_pos h]
      exact dictSet_pos hm (by omega)
    · rw [if_neg h]
      exact hm

/-- Claim C2: for every pair of input sequences, the interest extractor's
output mapping contains only positive integer scores, is sorted by
non-increasing score with ties kept in the insertion order in which the
extractor's dict recorded them, and has at most 15 entries. -/
theorem interest_extractor_output_shape (posts comments : List Item) :
    (∀ p ∈ extractInterestsFast (combinedText posts comments), 0 < p.2) ∧
    List.Pairwise (fun a b => b.2 ≤ a.2) (extractInterestsFast (combinedText posts comments)) ∧
    (extractInterestsFast (combinedText posts comments)).length ≤ 15 ∧
    ∀ v : Nat, ∃ rest,
      (extractInterestsFast (combinedText posts comments)).filter (fun q => q.2 == v) ++ rest
        = (interestsDict (combinedText posts comments)).filter (fun q => q.2 == v) := by
  refine ⟨?_, ?_, ?_, ?_⟩
  · intro p hp
    have hp' : p ∈ sortInterestsDesc (interestsDict (combinedText posts comments)) :=
      (List.take_sublist _ _).subset hp
    exact interestsDict_pos _ p (mem_sortInterestsDesc.mp hp')
  · exact List.Pairwise.take (pairwise_sortInterestsDesc _)
  · exact List.length_take_le _ _
  · intro v
    refine ⟨((sortInterestsDesc (interestsDict (combinedText posts comments))).drop 15).filter
      (fun q => q.2 == v), ?_⟩
    rw [extractInterestsFast, ← List.filter_append, List.take_append_drop,
      filter_sortInterestsDesc]

/-! ## Totality of the division-guarded stages -/

theorem pydiv_eq_some (a b : Frac) (h : b.num ≠ 0) : pydiv a b = some (Frac.div a b) := by
  simp [pydiv, Frac.isZero, h]

theorem pydiv_ofNat_max_one (a : Frac) (n : Nat) :
    pydiv a (Frac.ofNat (max n 1)) = some (Frac.div a (Frac.ofNat (max n 1))) := by
  apply pydiv_eq_some
  simp only [Frac.ofNat, ne_eq, Int.natCast_eq_zero]
  omega

theorem pydiv_ofNat_length (a : Frac) {α : Type} (l : List α) (h : l ≠ []) :
    pydiv a (Frac.ofNat l.length) = some (Frac.div a (Frac.ofNat l.length)) := by
  apply pydiv_eq_some
  simp only [Frac.ofNat, ne_eq, Int.natCast_eq_zero, List.length_eq_zero]
  exact h

theorem calculateVerbosity_isSome (texts : List String) :
    (calculateVerbosity texts).isSome = true := by
  unfold calculateVerbosity
  by_cases h : texts = []
  · rw [if_pos h]
    rfl
  · rw [if_neg h, pydiv_ofNat_length _ texts h]
    rfl

theorem analyzeDiscussionStyle_isSome (comments : List Item) :
    (analyzeDiscussionStyle comments).isSome = true := by
  unfold analyzeDiscussionStyle
  by_cases h : comments = []
  · rw [if_pos h]
    rfl
  · rw [if_neg h, pydiv_ofNat_length _ comments h]
    rfl

theorem analyzeCommunicationFast_isSome (posts comments : List Item) :
    (analyzeCommunicationFast posts comments).isSome = true := by
  unfold analyzeCommunicationFast
  by_cases h : posts = [] ∧ comments = []
  · rw [if_pos h]
    rfl
  · rw [if_neg h]
    obtain ⟨v, hv⟩ := Option.isSome_iff_exists.mp
      (calculateVerbosity_isSome ((posts ++ comments).map Prod.fst))
    simp only [pydiv_ofNat_max_one, Option.some_bind, hv]
    rfl

theorem extractBehavioralPatterns_isSome (posts comments : List Item) :
    (extractBehavioralPatterns posts comments).isSome = true := by
  unfold extractBehavioralPatterns
  obtain ⟨d, hd⟩ := Option.isSome_iff_exists.mp (analyzeDiscussionStyle_isSome comments)
  simp only [hd, Option.some_bind]
  rfl

theorem le_foldl_max (init : Nat) (l : List Nat) : init ≤ l.foldl max init := by
  induction l generalizing init with
  | nil => exact Nat.le_refl _
  | cons x xs ih => exact Nat.le_trans (Nat.le_max_left init x) (ih (max init x))

theorem listMaxNat_pos (l : List Nat) (hne : l ≠ []) (hpos : ∀ x ∈ l, 0 < x) :
    0 < listMaxNat l := by
  cases l with
  | nil => cases hne rfl
  | cons x xs =>
    exact Nat.lt_of_lt_of_le (hpos x (List.mem_cons_self _ _)) (le_foldl_max x xs)

theorem mapM_isSome {α β : Type} (f : α → Option β) (l : List α)
    (h : ∀ a ∈ l, (f a).isSome = true) : (l.mapM f).isSome = true := by
  induction l with
  | nil => rfl
  | cons a rest ih =>
    rw [List.mapM_cons]
    obtain ⟨b, hb⟩ := Option.isSome_iff_exists.mp (h a (List.mem_cons_self _ _))
    obtain ⟨bs, hbs⟩ := Option.isSome_iff_exists.mp
      (ih (fun x hx => h x (List.mem_cons_of_mem _ hx)))
    rw [hb, hbs]
    rfl

theorem extractInterestsFast_pos (text : String) :
    ∀ p ∈ extractInterestsFast text, 0 < p.2 := by
  intro p hp
  have hp' : p ∈ sortInterestsDesc (interestsDict text) :=
    (List.take_sublist _ _).subset hp
  exact interestsDict_pos _ p (mem_sortInterestsDesc.mp hp')

theorem interestLine_isSome (ms : Nat) (hms : ms ≠ 0) (p : String × Nat) :
    (interestLine ms p).isSome = true := by
  unfold interestLine
  rw [pydiv_eq_some]
  · rfl
  · simp only [Frac.ofNat, ne_eq, Int.natCast_eq_zero]
    exact hms

theorem formatInterests_isSome (interests : List (String × Nat))
    (hpos : ∀ p ∈ interests, 0 < p.2) : (formatInterests interests).isSome = true := by
  unfold formatInterests
  by_cases h : interests = []
  · rw [if_pos h]
    rfl
  · rw [if_neg h, if_neg h]
    have hposmap : ∀ x ∈ interests.map Prod.snd, 0 < x := by
      intro x hx
      obtain ⟨p, hp, rfl⟩ := List.mem_map.mp hx
      exact hpos p hp
    have hmax : listMaxNat (interests.map Prod.snd) ≠ 0 :=
      Nat.pos_iff_ne_zero.mp (listMaxNat_pos _ (by simpa using h) hposmap)
    obtain ⟨lines, hlines⟩ := Option.isSome_iff_exists.mp
      (mapM_isSome (interestLine (listMaxNat (interests.map Prod.snd)))
        (interests.take 10) (fun p _ => interestLine_isSome _ hmax p))
    rw [hlines]
    rfl

theorem generateFastReport_eq (username : String) (traits : List (String × Frac))
    (interests : List (String × Nat)) (comm : CommDict) (pat : Patterns)
    (posts comments : List Item) (ts : String) (ch : Nat) (atime : Frac)
    (fi : String) (hfi : formatInterests interests = some fi) :
    generateFastReport username traits interests comm pat posts comments ts ch atime
      = some (reportPartA username posts comments ++ ts ++
          reportPartB (formatTraits traits) fi comm pat
            (generateQuickInsights traits interests comm pat) ++
          toString ch ++ reportPartC ++ fmtF atime 2 ++ reportPartD) := by
  unfold generateFastReport
  rw [hfi]
  rfl

theorem ultraFastAnalysis_shape (posts comments : List Item) (u : String) :
    ∃ comm pat fi, ∀ (ts : String) (ch : Nat) (atime : Frac),
      ultraFastAnalysis posts comments u ts ch atime
        = some (reportPartA u posts comments ++ ts ++
            reportPartB (formatTraits (analyzePersonalityFast (combinedText posts comments)))
              fi comm pat
              (generateQuickInsights (analyzePersonalityFast (combinedText posts comments))
                (extractInterestsFast (combinedText posts comments)) comm pat) ++
            toString ch ++ reportPartC ++ fmtF atime 2 ++ reportPartD) := by
  obtain ⟨comm, hcomm⟩ := Option.isSome_iff_exists.mp
    (analyzeCommunicationFast_isSome posts comments)
  obtain ⟨pat, hpat⟩ := Option.isSome_iff_exists.mp
    (extractBehavioralPatterns_isSome posts comments)
  obtain ⟨fi, hfi⟩ := Option.isSome_iff_exists.mp
    (formatInterests_isSome (extractInterestsFast (combinedText posts comments))
      (extractInterestsFast_pos (combinedText posts comments)))
  refine ⟨comm, pat, fi, fun ts ch atime => ?_⟩
  unfold ultraFastAnalysis
  rw [hcomm, hpat]
  simp only [Option.bind_eq_bind, Option.some_bind]
  exact generateFastReport_eq u _ _ comm pat posts comments ts ch atime fi hfi

theorem ultraFastAnalysis_isSome (posts comments : List Item) (u ts : String)
    (ch : Nat) (atime : Frac) :
    (ultraFastAnalysis posts comments u ts ch atime).isSome = true := by
  obtain ⟨comm, pat, fi, hshape⟩ := ultraFastAnalysis_shape posts comments u
  rw [hshape ts ch atime]
  rfl

/-! ## The pipeline reads items only through their texts, never their URLs -/

theorem mapfst_length {α β : Type} {l l' : List (α × β)}
    (h : l.map Prod.fst = l'.map Prod.fst) : l.length = l'.length := by
  have h2 := congrArg List.length h
  simpa using h2

theorem mapfst_eq_nil_iff {α β : Type} {l l' : List (α × β)}
    (h : l.map Prod.fst = l'.map Prod.fst) : l = [] ↔ l' = [] := by
  constructor
  · intro he
    rw [he] at h
    exact List.map_eq_nil_iff.mp h.symm
  · intro he
    rw [he] at h
    exact List.map_eq_nil_iff.mp h

theorem mapfst_textlens {l l' : List Item} (h : l.map Prod.fst = l'.map Prod.fst) :
    l.map (fun p => p.1.length) = l'.map (fun p => p.1.length) := by
  have h2 := congrArg (List.map String.length) h
  simpa [List.map_map, Function.comp] using h2

theorem combinedText_texts_only {posts posts' comments comments' : List Item}
    (hp : posts.map Prod.fst = posts'.map Prod.fst)
    (hc : comments.map Prod.fst = comments'.map Prod.fst) :
    combinedText posts comments = combinedText posts' comments' := by
  unfold combinedText
  rw [List.map_append, List.map_append, hp, hc]

theorem analyzeCommunicationFast_texts_only {posts posts' comments comments' : List Item}
    (hp : posts.map Prod.fst = posts'.map Prod.fst)
    (hc : comments.map Prod.fst = comments'.map Prod.fst) :
    analyzeCommunicationFast posts comments = analyzeCommunicationFast posts' comments' := by
  have hat : (posts ++ comments).map Prod.fst = (posts' ++ comments').map Prod.fst := by
    rw [List.map_append, List.map_append, hp, hc]
  have hde : determineEngagementStyle posts comments
      = determineEngagementStyle posts' comments' := by
    unfold determineEngagementStyle
    rw [mapfst_length hp, mapfst_length hc]
  unfold analyzeCommunicationFast
  by_cases he : posts = [] ∧ comments = []
  · rw [if_pos he, if_pos ⟨(mapfst_eq_nil_iff hp).mp he.1, (mapfst_eq_nil_iff hc).mp he.2⟩]
  · have he' : ¬ (posts' = [] ∧ comments' = []) := by
      intro hx
      exact he ⟨(mapfst_eq_nil_iff hp).mpr hx.1, (mapfst_eq_nil_iff hc).mpr hx.2⟩
    rw [if_neg he, if_neg he']
    have hpl_list : (if posts ≠ [] then posts.map (fun p => p.1.length) else [0])
        = (if posts' ≠ [] then posts'.map (fun p => p.1.length) else [0]) := by
      by_cases hpe : posts = []
      · simp [hpe, (mapfst_eq_nil_iff hp).mp hpe]
      · have hpe' : ¬ posts' = [] := fun hx => hpe ((mapfst_eq_nil_iff hp).mpr hx)
        simp [hpe, hpe', mapfst_textlens hp]
    have hcl_list : (if comments ≠ [] then comments.map (fun p => p.1.length) else [0])
        = (if comments' ≠ [] then comments'.map (fun p => p.1.length) else [0]) := by
      by_cases hce : comments = []
      · simp [hce, (mapfst_eq_nil_iff hc).mp hce]
      · have hce' : ¬ comments' = [] := fun hx => hce ((mapfst_eq_nil_iff hc).mpr hx)
        simp [hce, hce', mapfst_textlens hc]
    rw [hpl_list, hcl_list, hat, hde, mapfst_length hp, mapfst_length hc]

theorem analyzeDiscussionStyle_texts_only {comments comments' : List Item}
    (hc : comments.map Prod.fst = comments'.map Prod.fst) :
    analyzeDiscussionStyle comments = analyzeDiscussionStyle comments' := by
  unfold analyzeDiscussionStyle
  by_cases hce : comments = []
  · rw [if_pos hce, if_pos ((mapfst_eq_nil_iff hc).mp hce)]
  · have hce' : ¬ comments' = [] := fun hx => hce ((mapfst_eq_nil_iff hc).mpr hx)
    rw [if_neg hce, if_neg hce', mapfst_textlens hc, mapfst_length hc]

theorem extractBehavioralPatterns_texts_only {posts posts' comments comments' : List Item}
    (hp : posts.map Prod.fst = posts'.map Prod.fst)
    (hc : comments.map Prod.fst = comments'.map Prod.fst) :
    extractBehavioralPatterns posts comments = extractBehavioralPatterns posts' comments' := by
  have hip : analyzeInteractionPattern posts comments
      = analyzeInteractionPattern posts' comments' := by
    unfold analyzeInteractionPattern
    rw [mapfst_length hp, mapfst_length hc]
  unfold extractBehavioralPatterns
  rw [analyzeDiscussionStyle_texts_only hc, hip, mapfst_length hp, mapfst_length hc]

theorem generateFastReport_texts_only (u : String) (traits : List (String × Frac))
    (interests : List (String × Nat)) (comm : CommDict) (pat : Patterns)
    {posts posts' comments comments' : List Item}
    (hp : posts.length = posts'.length) (hc : comments.length = comments'.length)
    (ts : String) (ch : Nat) (atime : Frac) :
    generateFastReport u traits interests comm pat posts comments ts ch atime
      = generateFastReport u traits interests comm pat posts' comments' ts ch atime := by
  unfold generateFastReport reportPartA
  rw [hp, hc]

theorem ultraFastAnalysis_texts_only {posts posts' comments comments' : List Item}
    (hp : posts.map Prod.fst = posts'.map Prod.fst)
    (hc : comments.map Prod.fst = comments'.map Prod.fst)
    (u ts : String) (ch : Nat) (atime : Frac) :
    ultraFastAnalysis posts comments u ts ch atime
      = ultraFastAnalysis posts' comments' u ts ch atime := by
  have hct := combinedText_texts_only hp hc
  have hgen : ∀ (comm : CommDict) (pat : Patterns),
      generateFastReport u (analyzePersonalityFast (combinedText posts' comments'))
        (extractInterestsFast (combinedText posts' comments')) comm pat posts comments
        ts ch atime
      = generateFastReport u (analyzePersonalityFast (combinedText posts' comments'))
        (extractInterestsFast (combinedText posts' comments')) comm pat posts' comments'
        ts ch atime :=
    fun comm pat => generateFastReport_texts_only u _ _ comm pat
      (mapfst_length hp) (mapfst_length hc) ts ch atime
  unfold ultraFastAnalysis
  simp only [analyzeCommunicationFast_texts_only hp hc,
    extractBehavioralPatterns_texts_only hp hc, hct, hgen]

set_option maxRecDepth 10000 in
/-- Claim C3: on `posts = []`, `comments = []` the communication analyzer
returns the empty dict, the trait and interest mappings are empty, the
behavioral classifier returns the lowest engagement band `"Casual"`, and the
report renders a "no data detected" fallback line for the trait and interest
sections and substitutes `"Unknown"`/`0` for every missing communication key,
without raising. -/
theorem empty_input_pipeline_behaviour :
    analyzeCommunicationFast [] [] = some CommDict.empty ∧
    analyzePersonalityFast (combinedText [] []) = [] ∧
    extractInterestsFast (combinedText [] []) = [] ∧
    extractBehavioralPatterns [] [] = some
      { engagement_level := "Casual", content_preference := "Balanced",
        discussion_style := "Non-participant", activity_level := "Infrequent User",
        interaction_pattern := "Balanced Contributor" } ∧
    formatTraits [] = "• No significant personality traits detected from available data" ∧
    formatInterests [] = some "• No specific interests detected from available data" ∧
    (ultraFastAnalysis [] [] "testuser" "2024-01-01 12:00:00" 0 ⟨0, 1⟩).isSome = true ∧
    0 < pyCount emptyRunReport "• Average Post Length: 0 characters" ∧
    0 < pyCount emptyRunReport "• Average Comment Length: 0 characters" ∧
    0 < pyCount emptyRunReport "• Total Activity: 0 interactions" ∧
    0 < pyCount emptyRunReport "• Post-to-Comment Ratio: 0.00" ∧
    0 < pyCount emptyRunReport "• Verbosity Level: Unknown" ∧
    0 < pyCount emptyRunReport "• Engagement Style: Unknown" ∧
    0 < pyCount emptyRunReport "• Sentiment Tendency: Unknown" := by
  decide

/-- Counterexample to claim C4: a successful fetch of two empty sequences does
NOT skip the analysis stage — the pipeline is invoked and a report is
produced, because `analyze_user` only tests for the `(None, None)` fetch
failure, not for emptiness. -/
theorem empty_fetch_runs_analysis_counterexample :
    analyzeUser (some ([], [])) "testuser" "2024-01-01 12:00:00" 0 ⟨0, 1⟩
      = ultraFastAnalysis [] [] "testuser" "2024-01-01 12:00:00" 0 ⟨0, 1⟩ ∧
    (analyzeUser (some ([], [])) "testuser" "2024-01-01 12:00:00" 0 ⟨0, 1⟩).isSome = true :=
  ⟨rfl, by decide⟩

/-- Claim C4 as amended: only a failed fetch (both values `None`) skips the
analysis stage and surfaces `None`; a successful fetch — including one that
returned two empty sequences — invokes the analysis stage and produces a
report. -/
theorem analysis_skipped_only_on_failed_fetch (u ts : String) (ch : Nat) (atime : Frac) :
    analyzeUser none u ts ch atime = none ∧
    ∀ posts comments : List Item,
      analyzeUser (some (posts, comments)) u ts ch atime
        = ultraFastAnalysis posts comments u ts ch atime ∧
      (analyzeUser (some (posts, comments)) u ts ch atime).isSome = true := by
  refine ⟨rfl, fun posts comments => ⟨rfl, ?_⟩⟩
  show (ultraFastAnalysis posts comments u ts ch atime).isSome = true
  exact ultraFastAnalysis_isSome posts comments u ts ch atime

set_option maxRecDepth 10000 in
/-- Counterexample to claim C5: the report of a run on eight comments contains
no citations section — no source URL (no `"https"` at all), no `"more"` line,
and no text preview of any comment. -/
theorem report_has_no_citations_counterexample :
    (ultraFastAnalysis [] eightComments "testuser" "2024-01-01 12:00:00" 0 ⟨0, 1⟩).isSome
      = true ∧
    pyCount eightCommentsReport "https" = 0 ∧
    pyCount eightCommentsReport "more" = 0 ∧
    pyCount eightCommentsReport "aaaaaaaaaaaa" = 0 := by
  decide

/-- Claim C5 as amended: the generated report contains no citations section;
it never reads the items' source URLs, so replacing every URL by anything
leaves the report byte-identical. -/
theorem report_renders_no_item_urls (posts comments : List Item) (f g : String → String)
    (u ts : String) (ch : Nat) (atime : Frac) :
    ultraFastAnalysis (posts.map (fun p => (p.1, f p.2)))
      (comments.map (fun p => (p.1, g p.2))) u ts ch atime
      = ultraFastAnalysis posts comments u ts ch atime :=
  ultraFastAnalysis_texts_only (by simp) (by simp) u ts ch atime

/-- Counterexample to claim C6: the report depends on the analyzer's mutable
`stats` beyond the generation timestamp.  Two runs on identical `(posts,
comments)` and an identical timestamp differ when `stats['cache_hits']`
differs (which the second of two consecutive `analyze_user` calls on the same
username produces) or when `stats['analysis_time']` differs (which the
wall-clock measurement of the first run produces). -/
theorem pipeline_stateful_fields_counterexample :
    ultraFastAnalysis [] [] "u" "TS" 0 ⟨0, 1⟩ ≠ ultraFastAnalysis [] [] "u" "TS" 1 ⟨0, 1⟩ ∧
    ultraFastAnalysis [] [] "u" "TS" 0 ⟨0, 1⟩ ≠ ultraFastAnalysis [] [] "u" "TS" 0 ⟨5, 10⟩ := by
  obtain ⟨comm, pat, fi, hshape⟩ := ultraFastAnalysis_shape [] [] "u"
  constructor
  · intro heq
    rw [hshape "TS" 0 ⟨0, 1⟩, hshape "TS" 1 ⟨0, 1⟩] at heq
    have h2 := congrArg String.data (Option.some.inj heq)
    simp only [String.data_append] at h2
    have h3 := List.append_cancel_left (List.append_cancel_right
      (List.append_cancel_right (List.append_cancel_right h2)))
    rw [show (toString (0 : Nat)).data = ['0'] from rfl,
      show (toString (1 : Nat)).data = ['1'] from rfl] at h3
    simp at h3
  · intro heq
    rw [hshape "TS" 0 ⟨0, 1⟩, hshape "TS" 0 ⟨5, 10⟩] at heq
    have h2 := congrArg String.data (Option.some.inj heq)
    simp only [String.data_append] at h2
    have h3 := List.append_cancel_left (List.append_cancel_right h2)
    rw [show fmtF ⟨0, 1⟩ 2 = "0.00" from rfl, show fmtF ⟨5, 10⟩ 2 = "0.50" from rfl] at h3
    simp at h3

/-- Claim C6 as amended: for fixed `(posts, comments)` and username the report
decomposes as fixed text around exactly three stamped fields — the generation
timestamp, the cache-hits counter and the processing-time value — so two runs
with equal stamps are byte-identical, and all scoring structures are functions
of `(posts, comments)` alone. -/
theorem report_stamped_fields_isolated (posts comments : List Item) (u : String) :
    ∃ A B C D : String, ∀ (ts : String) (ch : Nat) (atime : Frac),
      ultraFastAnalysis posts comments u ts ch atime
        = some (A ++ ts ++ B ++ toString ch ++ C ++ fmtF atime 2 ++ D) := by
  obtain ⟨comm, pat, fi, hshape⟩ := ultraFastAnalysis_shape posts comments u
  exact ⟨reportPartA u posts comments,
    reportPartB (formatTraits (analyzePersonalityFast (combinedText posts comments))) fi
      comm pat
      (generateQuickInsights (analyzePersonalityFast (combinedText posts comments))
        (extractInterestsFast (combinedText posts comments)) comm pat),
    reportPartC, reportPartD, hshape⟩

/-- Claim C9: on the combined text `"r/golang r/golang r/rust"` the interest
mapping is exactly `r/golang ↦ 6, r/rust ↦ 3` (weight 3 per mention), with
`r/golang` ranked first. -/
theorem subreddit_mentions_scored :
    extractInterestsFast "r/golang r/golang r/rust" = [("r/golang", 6), ("r/rust", 3)] := by
  decide

/-- Claim C10: every division in the analysis and formatting stages has a
nonzero denominator — each division-performing stage, and the whole pipeline,
returns a value rather than the `none` that models a `ZeroDivisionError`. -/
theorem no_division_by_zero :
    (∀ texts : List String, (calculateVerbosity texts).isSome = true) ∧
    (∀ comments : List Item, (analyzeDiscussionStyle comments).isSome = true) ∧
    (∀ posts comments : List Item, (analyzeCommunicationFast posts comments).isSome = true) ∧
    (∀ text : String, (formatInterests (extractInterestsFast text)).isSome = true) ∧
    (∀ (posts comments : List Item) (u ts : String) (ch : Nat) (atime : Frac),
      (ultraFastAnalysis posts comments u ts ch atime).isSome = true) :=
  ⟨calculateVerbosity_isSome, analyzeDiscussionStyle_isSome, analyzeCommunicationFast_isSome,
    fun text => formatInterests_isSome _ (extractInterestsFast_pos text),
    ultraFastAnalysis_isSome⟩

/-- Claim C8: for every non-empty collection of input texts the sentiment
tendency is "Generally Positive" exactly when the positive-word count strictly
exceeds 1.5 times the negative-word count over the combined lowercased text,
"Generally Critical" exactly when the negative count strictly exceeds 1.5
times the positive count, and "Balanced" otherwise. -/
theorem sentiment_tendency_classification (texts : List String) (h : texts ≠ []) :
    (analyzeSentimentBasic texts = "Generally Positive" ↔
      (wordScore negative_words texts : ℚ) * 1.5 < (wordScore positive_words texts : ℚ)) ∧
    (analyzeSentimentBasic texts = "Generally Critical" ↔
      (wordScore positive_words texts : ℚ) * 1.5 < (wordScore negative_words texts : ℚ)) ∧
    (¬ (wordScore negative_words texts : ℚ) * 1.5 < (wordScore positive_words texts : ℚ) →
      ¬ (wordScore positive_words texts : ℚ) * 1.5 < (wordScore negative_words texts : ℚ) →
      analyzeSentimentBasic texts = "Balanced") := by
  have key : ∀ a b : Nat,
      (Frac.lt (Frac.mul (Frac.ofNat a) ⟨15, 10⟩) (Frac.ofNat b) = true)
        ↔ (a : ℚ) * 1.5 < (b : ℚ) := by
    intro a b
    rw [Frac.lt_iff _ _ (by norm_num [Frac.mul, Frac.ofNat]) (by norm_num [Frac.ofNat]),
      Frac.toQ_mul, Frac.toQ_ofNat, Frac.toQ_ofNat]
    norm_num [Frac.toQ]
  have excl : ∀ a b : Nat, (a : ℚ) * 1.5 < b → ¬ ((b : ℚ) * 1.5 < a) := by
    intro a b h1 h2
    have ha : (0 : ℚ) ≤ a := Nat.cast_nonneg a
    have hb : (0 : ℚ) ≤ b := Nat.cast_nonneg b
    nlinarith
  unfold analyzeSentimentBasic
  rw [if_neg h]
  split_ifs with h1 h2
  · exact ⟨iff_of_true rfl ((key _ _).mp h1),
      iff_of_false (by decide) (excl _ _ ((key _ _).mp h1)),
      fun hx1 _ => absurd ((key _ _).mp h1) hx1⟩
  · have hn1 : ¬ ((wordScore negative_words texts : ℚ) * 1.5
        < (wordScore positive_words texts : ℚ)) := fun hx => h1 ((key _ _).mpr hx)
    exact ⟨iff_of_false (by decide) hn1,
      iff_of_true rfl ((key _ _).mp h2),
      fun _ hx2 => absurd ((key _ _).mp h2) hx2⟩
  · have hn1 : ¬ ((wordScore negative_words texts : ℚ) * 1.5
        < (wordScore positive_words texts : ℚ)) := fun hx => h1 ((key _ _).mpr hx)
    have hn2 : ¬ ((wordScore positive_words texts : ℚ) * 1.5
        < (wordScore negative_words texts : ℚ)) := fun hx => h2 ((key _ _).mpr hx)
    exact ⟨iff_of_false (by decide) hn1, iff_of_false (by decide) hn2, fun _ _ => rfl⟩

/-- Witness for C8 at a concrete input: the single text `"good good"` (two
positive hits, zero negative hits) is classified "Generally Positive". -/
theorem sentiment_tendency_classification_witness :
    (["good good"] ≠ ([] : List String)) ∧
    (analyzeSentimentBasic ["good good"] = "Generally Positive" ↔
      (wordScore negative_words ["good good"] : ℚ) * 1.5
        < (wordScore positive_words ["good good"] : ℚ)) :=
  ⟨by decide, (sentiment_tendency_classification ["good good"] (by decide)).1⟩
